import Mathlib

/-!
# BaiduPCS-Go: the command-line layer (`main.go`)

A shallow embedding of `main.go`: every function value the file defines (the
package initialiser, `getSubArgs`, the tab completer, the prompt construction
and the action of every registered command) is a Lean function over an
explicit description of what the function reads (its `cli.Context`, the
process-wide `pcsconfig.Config`, what the calls it makes return) and what it
does (the ordered list of calls that leave `main.go`, the new configuration,
and how the function ends).

Strings are Lean strings; `uint64`, `int64` and `int` values are `Nat` and `Int`.
-/

namespace BaiduPCSGo

/-! ## The parts of `github.com/urfave/cli` that `main.go` reads -/

/-- The positional arguments of a context, `cli.Args` (a `[]string`). -/
abbrev Args := List String

/-- `cli.Args.Get`: the n-th argument, or the blank string when there is none. -/
def Args.Get (a : Args) (n : Nat) : String := a.getD n ""

/-- `cli.Args.First`. -/
def Args.First (a : Args) : String := a.Get 0

/-- `cli.Args.Tail`: the arguments after the first. -/
def Args.Tail (a : Args) : List String := a.drop 1

/-- The value a flag holds once the command line has been read. -/
inductive FlagValue where
  | str (s : String)
  | int (i : Int)
  | uint (n : Nat)
  | bool (b : Bool)
  deriving DecidableEq, Repr

/-- A `cli.Context`: the positional arguments, the flags that were given on the
command line with their values, and the name of the command being run
(`c.Command.Name`). -/
structure Context where
  args : Args
  flags : List (String × FlagValue)
  commandName : String
  deriving DecidableEq, Repr

/-- `c.NArg()`. -/
def Context.NArg (c : Context) : Nat := c.args.length

/-- `c.IsSet(name)`: the flag was given on the command line. -/
def Context.IsSet (c : Context) (name : String) : Bool := (c.flags.lookup name).isSome

/-- `c.String(name)`; every string flag of `main.go` has the default value `""`. -/
def Context.Str (c : Context) (name : String) : String :=
  match c.flags.lookup name with
  | some (.str s) => s
  | _ => ""

/-- `c.Bool(name)`. -/
def Context.BoolFlag (c : Context) (name : String) : Bool :=
  match c.flags.lookup name with
  | some (.bool b) => b
  | _ => false

/-- `c.Int(name)`; the integer flags of `main.go` have the default value 0. -/
def Context.IntFlag (c : Context) (name : String) : Int :=
  match c.flags.lookup name with
  | some (.int i) => i
  | _ => 0

/-- `c.Int64(name)`. -/
def Context.Int64 (c : Context) (name : String) : Int :=
  match c.flags.lookup name with
  | some (.int i) => i
  | _ => 0

/-- `c.Uint(name)`, for a flag whose declared default is `dflt`. -/
def Context.Uint (c : Context) (name : String) (dflt : Nat) : Nat :=
  match c.flags.lookup name with
  | some (.uint n) => n
  | _ => dflt

/-- `c.Uint64(name)`. The library reads the flag's text with
`strconv.ParseUint(text, 0, 64)` and answers 0 when that fails; `uid` is declared
as a string flag in `main.go`, so its text is whatever the user typed.
`ParseUint` is that library function, taken as a parameter. -/
def Context.Uint64 (ParseUint : String → Option Nat) (c : Context) (name : String) : Nat :=
  match c.flags.lookup name with
  | some (.uint n) => n
  | some (.str s) => (ParseUint s).getD 0
  | _ => 0

/-! ## The parts of Go's standard library that `main.go` calls -/

/-- `strings.HasPrefix(s, p)`. -/
def strings.HasPrefix (s p : String) : Bool := p.data.isPrefixOf s.data

/-- The value of a decimal digit string, most significant digit first. -/
def decimalValue (ds : List Char) : Nat :=
  ds.foldl (fun n ch => n * 10 + (ch.toNat - 48)) 0

/-- `strconv.Atoi` for a 64-bit `int`: an optional sign followed by one or more
decimal digits whose value fits the type; `none` stands for a non-nil error. -/
def strconv.Atoi (s : String) : Option Int :=
  let signed : Bool × List Char :=
    match s.data with
    | '-' :: t => (true, t)
    | '+' :: t => (false, t)
    | cs => (false, cs)
  let ds := signed.2
  if ds = [] ∨ ¬ ds.all Char.isDigit then none
  else if signed.1 then
    if decimalValue ds > 2 ^ 63 then none else some (-(decimalValue ds : Int))
  else
    if decimalValue ds ≥ 2 ^ 63 then none else some (decimalValue ds : Int)

/-- `path.Base`: the last element of a slash-separated path. Trailing slashes are
removed first; the blank path gives `"."`, a path of slashes only gives `"/"`. -/
def path.Base (p : String) : String :=
  if p = "" then "."
  else
    let stripped := (p.data.reverse.dropWhile (· == '/')).reverse
    let last := (stripped.reverse.takeWhile (· != '/')).reverse
    if last = [] then "/" else String.mk last

/-- `filepath.Base` where the path separator is the slash and there are no
volume names: the same function as `path.Base`. -/
def filepath.Base (p : String) : String := path.Base p

/-- An operand of `fmt.Printf` or `fmt.Println`, by the Go type it has at the call:
a string (an `error` is passed as its message), an integer, a `[]byte`. -/
inductive Arg where
  | str (s : String)
  | int (i : Int)
  | bytes (b : List Nat)
  deriving DecidableEq, Repr

/-- `%d` of an integer. -/
def decimal (i : Int) : String := toString i

/-- A logged-in account, `pcsconfig.Baidu`: numeric id, display name, the three
credentials and the remote working directory. -/
structure Baidu where
  UID : Nat
  Name : String
  BDUSS : String
  PTOKEN : String
  STOKEN : String
  Workdir : String
  deriving DecidableEq, Repr

/-- The zero value `Baidu{}`, the sentinel for "no account". -/
def Baidu.zero : Baidu := ⟨0, "", "", "", "", ""⟩

/-- The account part of `pcsconfig.Config`: the id of the active account (0 when
none is active) and the ordered account list. -/
structure PCSConfig where
  BaiduActiveUID : Nat
  BaiduUserList : List Baidu
  deriving DecidableEq, Repr

/-- Modelled from the spec: `pcsconfig.Config.CheckUIDExist` is not in `main.go`;
it answers whether an account with this id is in the account list. -/
def CheckUIDExist (cfg : PCSConfig) (uid : Nat) : Bool :=
  cfg.BaiduUserList.any fun u => u.UID == uid

/-- Modelled from the spec: `pcsconfig.Config.MustGetActive` is not in `main.go`;
`getActive` returns the active account, and a zero-value sentinel account when
none exists. -/
def MustGetActive (cfg : PCSConfig) : Baidu :=
  (cfg.BaiduUserList.find? fun u => u.UID == cfg.BaiduActiveUID).getD Baidu.zero

/-- Modelled from the spec: `pcsconfig.Config.DeleteBaiduUserByUID` is not in
`main.go`; `removeAccount` fails with `NotFound` when there is no such account,
otherwise removes it, and the active account becomes unset when it was the one
removed. -/
def DeleteBaiduUserByUID (cfg : PCSConfig) (uid : Nat) : Except String PCSConfig :=
  if CheckUIDExist cfg uid then
    .ok
      { BaiduActiveUID := if cfg.BaiduActiveUID = uid then 0 else cfg.BaiduActiveUID
        BaiduUserList := cfg.BaiduUserList.filter fun u => u.UID != uid }
  else .error "NotFound"

/-- The digest set `pcscommand.GetFileSum` returns for a local file: its length,
the MD5 of its first 256 KiB, the MD5 of the whole file (both as bytes) and its
CRC32. -/
structure LocalPathInfo where
  Length : Int
  SliceMD5 : List Nat
  MD5 : List Nat
  CRC32 : Nat
  deriving DecidableEq, Repr

/-! ## What a function of `main.go` does -/

/-- A call that leaves `main.go`, with its arguments, in the order made. -/
inductive Event where
  | Printf (format : String) (args : List Arg)
  | Println (args : List Arg)
  | PrintlnUserList (list : List Baidu)
  | Scanln
  | ShowAppHelp
  | ShowCommandHelp (name : String)
  | Verbosef (format : String)
  | ExecutablePathJoin (name : String)
  | pcsconfigInit
  | ReloadInfo
  | DirCacheGC
  | ReloadIfInConsole
  | StartServer (port : Nat)
  | execCommand (name : String) (args : List String)
  | RunLogin (username password : String)
  | SetBDUSS (bduss ptoken stoken : String)
  | Save
  | DeleteBaiduUserByUID (uid : Nat)
  | RunGetQuota
  | RunChangeDirectory (path : String) (list : Bool)
  | RunLs (path : String)
  | RunGetMeta (path : String)
  | RunRemove (paths : List String)
  | RunMkdir (path : String)
  | RunCopy (paths : List String)
  | RunMove (paths : List String)
  | RunDownload (test : Bool) (parallel : Int) (paths : List String)
  | RunUpload (localPaths : List String) (savePath : String)
  | RunRapidUpload (targetPath md5 slicemd5 crc32 : String) (length : Int)
  | GetFileSum (localPath : String) (noCrc32 : Bool)
  | SetConfig (name value : String)
  | NewLiner
  | NewLineHistory
  | ReadHistory
  | SetCompleter
  | Prompt (text : String)
  | AppendHistory (commandLine : String)
  | GetArgs (commandLine : String)
  | Pause
  | Resume
  | DoWriteHistory
  | Close
  deriving DecidableEq, Repr

/-- An `error` value a function returns: an ordinary error with its message, or
one made by `cli.NewExitError`, on which the library ends the process. -/
inductive GoError where
  | plain (msg : String)
  | exitError (msg : String) (code : Int)
  deriving DecidableEq, Repr

/-- How a function ends: it returns (with its `error` result, `none` for nil), or
a run-time panic (slice bounds or index out of range) stops it. -/
inductive Status where
  | returned (err : Option GoError)
  | panicked
  deriving DecidableEq, Repr

/-- What running an action does: the calls it made, the account configuration it
leaves in `pcsconfig.Config`, and how it ended. -/
structure Result where
  events : List Event
  Config : PCSConfig
  status : Status
  deriving DecidableEq, Repr

/-- What an action finds when it runs: `pcsconfig.Config`, `os.Args[0]`, and the
results of the calls it may make: the word `fmt.Scanln` reads (or its error), and
the errors or values the `pcsconfig`, `pcscommand`, `pcsweb`, `pcsliner` and
`exec` calls return. -/
structure World where
  Config : PCSConfig
  Args0 : String
  Scanln : Except String String
  Save : Option String
  RunLogin : Except String (String × String × String)
  SetBDUSS : Except String String
  GetFileSum : Except String LocalPathInfo
  SetConfig : Option String
  cmdRun : Option String
  StartServer : String
  NewLineHistory : Option String

/-- An action that made the calls `events` and returned nil. -/
def World.done (w : World) (events : List Event) : Result :=
  ⟨events, w.Config, .returned none⟩

/-! ## `main.go` -/

/-- The initialiser of the package-level variable `historyFilePath`, which runs
before `init`. -/
def historyFilePath.initializer : List Event := [.ExecutablePathJoin "pcs_command_history.txt"]

/-- `reloadFn`, the `Before` and `After` hook of most commands. -/
def reloadFn : List Event := [.ReloadIfInConsole]

/-- The calls of `func init()`, in order. -/
def init : List Event := [.pcsconfigInit, .ReloadInfo, .DirCacheGC]

/-- The loop of `getSubArgs` from index `i` on, with `sargs` collected so far:
`for ; c.Args().Get(i) != ""; i++ { sargs = append(sargs, c.Args().Get(i)) }`. -/
def getSubArgsFrom (a : Args) (i : Nat) (sargs : List String) : List String :=
  if _more : a.Get i ≠ "" then getSubArgsFrom a (i + 1) (sargs ++ [a.Get i]) else sargs
termination_by a.length - i
decreasing_by
  have hi : i < a.length := by
    by_contra hlt
    exact ‹a.Get i ≠ ""›
      (by simp [Args.Get, List.getD, List.getElem?_eq_none (Nat.le_of_not_lt hlt)])
  omega

/-- `getSubArgs`. -/
def getSubArgs (c : Context) : List String := getSubArgsFrom c.args 0 []

/-- The prompt the interactive loop of `app.Action` builds for the active account.
`ShortDisplay` is `pcsutil.ShortDisplay`, which is not in `main.go`. -/
def prompt (ShortDisplay : String → Nat → String) (activeBaiduUser : Baidu) : String :=
  if activeBaiduUser.Name ≠ "" then
    "BaiduPCS-Go" ++ ":" ++ ShortDisplay (path.Base activeBaiduUser.Workdir) 20 ++ " "
      ++ activeBaiduUser.Name ++ "$ "
  else
    "BaiduPCS-Go" ++ " > "

/-! ### The command actions -/

/-- Action of `web`. -/
def web (c : Context) (w : World) : Result :=
  w.done
    [.Printf "web 客户端功能为实验性功能, 测试中, 打开 http://localhost:%d 查看效果\n"
        [.int (c.Uint "port" 8080)],
      .StartServer (c.Uint "port" 8080),
      .Println [.str w.StartServer]]

/-- Action of `run`. -/
def run (c : Context) (w : World) : Result :=
  if c.NArg = 0 then w.done [.ShowCommandHelp c.commandName]
  else
    match w.cmdRun with
    | some err => w.done [.execCommand c.args.First c.args.Tail, .Println [.str err]]
    | none => w.done [.execCommand c.args.First c.args.Tail]

/-- The last part of the action of `login`, from `SetBDUSS` on. -/
def login.setBDUSS (w : World) (events : List Event) (bduss ptoken stoken : String) : Result :=
  match w.SetBDUSS with
  | .error err => w.done (events ++ [.SetBDUSS bduss ptoken stoken, .Println [.str err]])
  | .ok username =>
    w.done (events ++ [.SetBDUSS bduss ptoken stoken,
      .Println [.str "百度帐号登录成功:", .str username]])

/-- Action of `login`. -/
def login (c : Context) (w : World) : Result :=
  if c.IsSet "bduss" then login.setBDUSS w [] (c.Str "bduss") "" ""
  else if c.NArg = 0 then
    match w.RunLogin with
    | .error err =>
      ⟨[.RunLogin (c.Str "username") (c.Str "password"), .Println [.str err]], w.Config,
        .returned (some (.plain err))⟩
    | .ok (bduss, ptoken, stoken) =>
      login.setBDUSS w [.RunLogin (c.Str "username") (c.Str "password")] bduss ptoken stoken
  else w.done [.ShowCommandHelp c.commandName]

/-- Action of `loglist`. -/
def loglist (_c : Context) (w : World) : Result :=
  w.done
    [.Printf "\n当前帐号 uid: %d, 用户名: %s\n"
        [.int (MustGetActive w.Config).UID, .str (MustGetActive w.Config).Name],
      .PrintlnUserList w.Config.BaiduUserList]

/-- Where a stretch of an action leaves control: it goes on with a value, returns
from the action, or panics. -/
inductive Flow (α : Type) where
  | next (a : α)
  | ret (err : Option GoError)
  | panic

/-- The part of the action of `su` that chooses `uid` (declared `var uid uint64`,
so 0 until assigned): the calls made and where control goes. -/
def su.chooseUID (ParseUint : String → Option Nat) (c : Context) (w : World) :
    List Event × Flow Nat :=
  if c.IsSet "uid" then
    if CheckUIDExist w.Config (c.Uint64 ParseUint "uid") then
      ([], .next (c.Uint64 ParseUint "uid"))
    else ([.Println [.str "切换用户失败, uid 不存在"]], .next 0)
  else if c.NArg = 0 then
    let asked := (loglist c w).events ++ [.Printf "输入要切换帐号的 index 值 > " [], .Scanln]
    match w.Scanln with
    | .error _ => (asked, .ret none)
    | .ok index =>
      match strconv.Atoi index with
      | some n =>
        if n ≥ 0 ∧ n < (w.Config.BaiduUserList.length : Int) then
          match w.Config.BaiduUserList.get? n.toNat with
          | some u => (asked, .next u.UID)
          | none => (asked, .panic)
        else (asked ++ [.Println [.str "切换用户失败, 请检查 index 值是否正确"]], .next 0)
      | none => (asked ++ [.Println [.str "切换用户失败, 请检查 index 值是否正确"]], .next 0)
  else ([.ShowCommandHelp c.commandName], .next 0)

/-- Action of `su`. -/
def su (ParseUint : String → Option Nat) (c : Context) (w : World) : Result :=
  if w.Config.BaiduUserList.length = 0 then
    w.done [.Println [.str "未设置任何百度帐号, 不能切换"]]
  else
    match su.chooseUID ParseUint c w with
    | (events, .ret err) => ⟨events, w.Config, .returned err⟩
    | (events, .panic) => ⟨events, w.Config, .panicked⟩
    | (events, .next uid) =>
      if uid = 0 then w.done events
      else
        match w.Save with
        | some err =>
          ⟨events ++ [.Save, .Println [.str err]],
            { w.Config with BaiduActiveUID := uid }, .returned none⟩
        | none =>
          ⟨events ++ [.Save,
              .Printf "切换用户成功, %v\n"
                [.str (MustGetActive { w.Config with BaiduActiveUID := uid }).Name]],
            { w.Config with BaiduActiveUID := uid }, .returned none⟩

/-- Action of `logout`. -/
def logout (_c : Context) (w : World) : Result :=
  if w.Config.BaiduUserList.length = 0 then
    w.done [.Println [.str "未设置任何百度帐号, 不能退出"]]
  else
    let au := MustGetActive w.Config
    let asked : List Event := [.Printf "确认退出百度帐号: %s ? (y/n) > " [.str au.Name], .Scanln]
    match w.Scanln with
    | .error err => ⟨asked, w.Config, .returned (some (.plain err))⟩
    | .ok confirm =>
      if confirm ≠ "y" ∧ confirm ≠ "Y" then w.done asked
      else
        match DeleteBaiduUserByUID w.Config au.UID with
        | .error err =>
          w.done (asked ++ [.DeleteBaiduUserByUID au.UID,
            .Printf "退出用户 %s, 失败, 错误: %s\n" [.str au.Name, .str err],
            .Printf "退出用户成功, %s\n" [.str au.Name]])
        | .ok cfg =>
          ⟨asked ++ [.DeleteBaiduUserByUID au.UID, .Printf "退出用户成功, %s\n" [.str au.Name]],
            cfg, .returned none⟩

/-- Action of `quota`. -/
def quota (_c : Context) (w : World) : Result := w.done [.RunGetQuota]

/-- Action of `cd`. -/
def cd (c : Context) (w : World) : Result :=
  if c.NArg = 0 then w.done [.ShowCommandHelp c.commandName]
  else w.done [.RunChangeDirectory (c.args.Get 0) (c.BoolFlag "l")]

/-- Action of `ls`. -/
def ls (c : Context) (w : World) : Result := w.done [.RunLs (c.args.Get 0)]

/-- Action of `pwd`. -/
def pwd (_c : Context) (w : World) : Result :=
  w.done [.Println [.str (MustGetActive w.Config).Workdir]]

/-- Action of `meta`. -/
def «meta» (c : Context) (w : World) : Result := w.done [.RunGetMeta (c.args.Get 0)]

/-- Action of `rm`. -/
def rm (c : Context) (w : World) : Result :=
  if c.NArg = 0 then w.done [.ShowCommandHelp c.commandName]
  else w.done [.RunRemove (getSubArgs c)]

/-- Action of `mkdir`. -/
def mkdir (c : Context) (w : World) : Result :=
  if c.NArg = 0 then w.done [.ShowCommandHelp c.commandName]
  else w.done [.RunMkdir (c.args.Get 0)]

/-- Action of `cp`. -/
def cp (c : Context) (w : World) : Result :=
  if c.NArg ≤ 1 then w.done [.ShowCommandHelp c.commandName]
  else w.done [.RunCopy (getSubArgs c)]

/-- Action of `mv`. -/
def mv (c : Context) (w : World) : Result :=
  if c.NArg ≤ 1 then w.done [.ShowCommandHelp c.commandName]
  else w.done [.RunMove (getSubArgs c)]

/-- Action of `download`. -/
def download (c : Context) (w : World) : Result :=
  if c.NArg = 0 then w.done [.ShowCommandHelp c.commandName]
  else w.done [.RunDownload (c.BoolFlag "test") (c.IntFlag "p") (getSubArgs c)]

/-- Action of `upload`. The two operands of `RunUpload` are evaluated in order:
the slice `subArgs[:c.NArg()-1]` panics when its bound exceeds the capacity of
`subArgs`, the index `subArgs[c.NArg()-1]` when it is not below the length. The
capacity is at least the length, so one of the two panics exactly when the index
is not below the length, and otherwise the slice holds the first `c.NArg()-1`
elements. -/
def upload (c : Context) (w : World) : Result :=
  if c.NArg ≤ 1 then w.done [.ShowCommandHelp c.commandName]
  else
    let subArgs := getSubArgs c
    match subArgs.get? (c.NArg - 1) with
    | some savePath => w.done [.RunUpload (subArgs.take (c.NArg - 1)) savePath]
    | none => ⟨[], w.Config, .panicked⟩

/-- Action of `rapidupload`. -/
def rapidupload (c : Context) (w : World) : Result :=
  if c.NArg ≤ 0 ∨ !c.IsSet "md5" ∨ !c.IsSet "slicemd5" ∨ !c.IsSet "length" then
    w.done [.ShowCommandHelp c.commandName]
  else
    w.done [.RunRapidUpload (c.args.Get 0) (c.Str "md5") (c.Str "slicemd5") (c.Str "crc32")
      (c.Int64 "length")]

/-- The format `sumfile` prints its result with. -/
def sumfile.format : String :=
  "\n[%s]:\n文件大小: %d, md5: %x, 前256KB切片的md5: %x, crc32: %d, \n\n秒传命令: %s rapidupload -length=%d -md5=%x -slicemd5=%x -crc32=%d %s\n\n"

/-- The operands `sumfile` prints its result with: the path as given, the four
values of the digest, `os.Args[0]`, the four values again, and the base name of the
path. -/
def sumfile.operands (c : Context) (w : World) (lp : LocalPathInfo) : List Arg :=
  [.str (c.args.Get 0),
    .int lp.Length, .bytes lp.MD5, .bytes lp.SliceMD5, .int lp.CRC32,
    .str w.Args0,
    .int lp.Length, .bytes lp.MD5, .bytes lp.SliceMD5, .int lp.CRC32,
    .str (filepath.Base (c.args.Get 0))]

/-- Action of `sumfile`. -/
def sumfile (c : Context) (w : World) : Result :=
  if c.NArg ≤ 0 then w.done [.ShowCommandHelp c.commandName]
  else
    match w.GetFileSum with
    | .error err =>
      ⟨[.GetFileSum (c.args.Get 0) false, .Println [.str err]], w.Config,
        .returned (some (.plain err))⟩
    | .ok lp =>
      w.done [.GetFileSum (c.args.Get 0) false,
        .Printf sumfile.format (sumfile.operands c w lp)]

/-- Action of `set`. -/
def set (c : Context) (w : World) : Result :=
  if c.NArg < 2 ∨ c.args.Get 1 = "" then w.done [.ShowCommandHelp c.commandName]
  else
    match w.SetConfig with
    | some err =>
      w.done [.SetConfig (c.args.Get 0) (c.args.Get 1), .Println [.str err],
        .ShowCommandHelp "set"]
    | none => w.done [.SetConfig (c.args.Get 0) (c.args.Get 1)]

/-- Action of `quit`. -/
def quit (_c : Context) (w : World) : Result :=
  ⟨[], w.Config, .returned (some (.exitError "" 0))⟩

/-! ### The application -/

/-- An entry of `app.Commands`: its name and aliases, the calls of its `Before`
and `After` hooks (those of `reloadFn`, or none), and its action. -/
structure Command where
  Name : String
  Aliases : List String
  Before : List Event
  After : List Event
  Action : Context → World → Result

/-- `cli.Command.FullName` of a command registered directly on the application:
its name. -/
def Command.FullName (cmd : Command) : String := cmd.Name

/-- `app.Commands` as `main` writes it. -/
def appCommands (ParseUint : String → Option Nat) : List Command :=
  [ ⟨"web", [], reloadFn, [], web⟩,
    ⟨"run", [], [], [], run⟩,
    ⟨"login", [], reloadFn, reloadFn, login⟩,
    ⟨"su", ["chuser"], reloadFn, reloadFn, su ParseUint⟩,
    ⟨"logout", [], reloadFn, reloadFn, logout⟩,
    ⟨"loglist", [], reloadFn, [], loglist⟩,
    ⟨"quota", [], reloadFn, [], quota⟩,
    ⟨"cd", [], reloadFn, reloadFn, cd⟩,
    ⟨"ls", ["l", "ll"], reloadFn, [], ls⟩,
    ⟨"pwd", [], reloadFn, [], pwd⟩,
    ⟨"meta", [], reloadFn, [], «meta»⟩,
    ⟨"rm", [], reloadFn, [], rm⟩,
    ⟨"mkdir", [], reloadFn, [], mkdir⟩,
    ⟨"cp", [], reloadFn, [], cp⟩,
    ⟨"mv", [], reloadFn, [], mv⟩,
    ⟨"download", ["d"], reloadFn, [], download⟩,
    ⟨"upload", ["u"], reloadFn, [], upload⟩,
    ⟨"rapidupload", ["ru"], reloadFn, [], rapidupload⟩,
    ⟨"sumfile", ["sf"], reloadFn, [], sumfile⟩,
    ⟨"set", [], reloadFn, reloadFn, set⟩,
    ⟨"quit", ["exit"], [], [], quit⟩ ]

/-- The tab completer handed to `line.State.SetCompleter`; `cmds` is
`app.Commands` when the completer is called. -/
def completer (cmds : List Command) (line : String) : List String :=
  cmds.foldl
    (fun s cmd => if !strings.HasPrefix cmd.FullName line then s else s ++ [cmd.FullName ++ " "])
    []

/-- How a run of the application, or of the whole process, ends. -/
inductive Ending where
  | returned
  | exited (code : Int)
  | panicked
  deriving DecidableEq, Repr

/-- `app.Command(name)`: the first registered command with this name or alias. -/
def appCommand (ParseUint : String → Option Nat) (name : String) : Option Command :=
  (appCommands ParseUint).find? fun cmd => cmd.Name == name || cmd.Aliases.contains name

/-- What the library does with a command it has chosen: the `Before` hook, the
action, and then the `After` hook, which is deferred and so also runs when the
action panics. An exit error returned by the action ends the process at once. -/
def Command.Run (cmd : Command) (c : Context) (w : World) : List Event × Ending :=
  match (cmd.Action c w).status with
  | .returned (some (.exitError _ code)) => (cmd.Before ++ (cmd.Action c w).events, .exited code)
  | .returned _ => (cmd.Before ++ (cmd.Action c w).events ++ cmd.After, .returned)
  | .panicked => (cmd.Before ++ (cmd.Action c w).events ++ cmd.After, .panicked)

mutual
/-- One call of `app.Run`, by what the library makes of the command line: it
answers by itself (help, version, a usage error), it runs the command registered
under a name, with the context it has built and the world the action finds, or it
runs `app.Action`, whose interactive loop is described by a session. -/
inductive Run where
  | library : Run
  | command (name : String) (c : Context) (w : World) : Run
  | app (c : Context) (w : World) (s : Session) : Run
/-- The rounds of the interactive loop of `app.Action`. Each round finds a world
(for the active account of the prompt). The last one is the round in which
`line.State.Prompt` fails; every other round reads a command line, which
`args.GetArgs` splits into words, and on which, when there is a word, `c.App.Run`
is called. -/
inductive Session where
  | promptError (w : World) (err : String) : Session
  | line (w : World) (commandLine : String) (cmdArgs : List String) (r : Run)
      (next : Session) : Session
end

mutual
/-- The calls of one `app.Run`, and how it ends. -/
def Run.trace (ParseUint : String → Option Nat) (ShortDisplay : String → Nat → String) :
    Run → List Event × Ending
  | .library => ([], .returned)
  | .command name c w =>
    match appCommand ParseUint name with
    | some cmd => cmd.Run c w
    | none => ([], .returned)
  | .app c w s =>
    if c.NArg ≠ 0 then
      ([.Printf "未找到命令: %s\n运行命令 %s help 获取帮助\n"
          [.str (c.args.Get 0), .str "BaiduPCS-Go"]], .returned)
    else
      let start : List Event :=
        [.ShowAppHelp, .Verbosef "这是一条调试信息\n\n", .NewLiner, .NewLineHistory]
          ++ (match w.NewLineHistory with
              | some err => [.Printf "警告: 读取历史命令文件错误, %s\n" [.str err]]
              | none => [])
          ++ [.ReadHistory, .SetCompleter]
      match Session.trace ParseUint ShortDisplay s with
      | (events, .exited code) => (start ++ events, .exited code)
      | (events, ending) => (start ++ events ++ [.DoWriteHistory, .Close], ending)
/-- The calls of the interactive loop from one round on, and how the loop ends. -/
def Session.trace (ParseUint : String → Option Nat) (ShortDisplay : String → Nat → String) :
    Session → List Event × Ending
  | .promptError w err =>
    ([.Prompt (prompt ShortDisplay (MustGetActive w.Config)), .Println [.str err]], .returned)
  | .line w commandLine cmdArgs r next =>
    let read : List Event :=
      [.Prompt (prompt ShortDisplay (MustGetActive w.Config)), .AppendHistory commandLine,
        .GetArgs commandLine]
    if cmdArgs.length = 0 then
      (read ++ (Session.trace ParseUint ShortDisplay next).1,
        (Session.trace ParseUint ShortDisplay next).2)
    else
      match Run.trace ParseUint ShortDisplay r with
      | (events, .returned) =>
        (read ++ [.Pause] ++ events ++ [.Resume] ++ (Session.trace ParseUint ShortDisplay next).1,
          (Session.trace ParseUint ShortDisplay next).2)
      | (events, ending) => (read ++ [.Pause] ++ events, ending)
end

/-- The calls of `func main()`: building the application and sorting its flags
and commands makes none, so they are those of `app.Run(os.Args)`. -/
def main (ParseUint : String → Option Nat) (ShortDisplay : String → Nat → String)
    (r : Run) : List Event :=
  (Run.trace ParseUint ShortDisplay r).1

/-- The calls of a whole run of the program: the package-level variables are
initialised, then `init` runs, then `main`. -/
def process (ParseUint : String → Option Nat) (ShortDisplay : String → Nat → String)
    (r : Run) : List Event :=
  historyFilePath.initializer ++ init ++ main ParseUint ShortDisplay r

/-! ### `pcsutil.ShortDisplay` -/

/-- The characters `ShortDisplay` keeps: those at the beginning of the text whose
display widths add up to at most `num`. -/
def ShortDisplay.fit (width : Char → Nat) : List Char → Nat → List Char
  | [], _ => []
  | ch :: rest, num =>
    if width ch ≤ num then ch :: ShortDisplay.fit width rest (num - width ch) else []

/-- Modelled from the spec: `pcsutil.ShortDisplay` is not in `main.go`, and the spec
leaves the interactive shell out of its scope. What is known of it is its one call,
`ShortDisplay(path.Base(workdir), 20)`, and the comment there: the text is
abbreviated when it is too long. It is modelled as the longest beginning of the
text that is at most `num` display units wide, `width` being the number of
display units of a character. -/
def ShortDisplay (width : Char → Nat) (s : String) (num : Nat) : String :=
  String.mk (ShortDisplay.fit width s.data num)

/-- An account with the given id, name and working directory and no credentials. -/
def sampleAccount (uid : Nat) (name workdir : String) : Baidu :=
  ⟨uid, name, "", "", "", workdir⟩

/-- A world with the given configuration and `fmt.Scanln` outcome, in which the
program was started as `pcs` and every other call succeeds. -/
def sampleWorld (cfg : PCSConfig) (scanln : Except String String) : World :=
  { Config := cfg
    Args0 := "pcs"
    Scanln := scanln
    Save := none
    RunLogin := .ok ("", "", "")
    SetBDUSS := .ok ""
    GetFileSum := .ok ⟨0, [], [], 0⟩
    SetConfig := none
    cmdRun := none
    StartServer := "<nil>"
    NewLineHistory := none }

/-! ### Reading a command line -/

/-- The arguments of a `rapidupload` command line, from the command name on. -/
def rapiduploadArguments (length : Int) (md5 slicemd5 crc32 target : String) : String :=
  "rapidupload -length=" ++ decimal length ++ " -md5=" ++ md5 ++ " -slicemd5=" ++ slicemd5
    ++ " -crc32=" ++ crc32 ++ " " ++ target

/-- The command line `sumfile` prints: the program name as the program was
started, a space, and the arguments. -/
def rapiduploadCommandLine (args0 : String) (length : Int) (md5 slicemd5 crc32 target : String) :
    String :=
  args0 ++ " " ++ rapiduploadArguments length md5 slicemd5 crc32 target

/-! ## Properties -/

/-! ### `getSubArgs` -/

/-- `Args.Get` inside the list is the element there. -/
theorem Args.Get_of_lt (a : Args) (i : Nat) (h : i < a.length) : a.Get i = a.get ⟨i, h⟩ := by
  simp [Args.Get, List.getD, List.getElem?_eq_getElem h]

/-- `Args.Get` past the end is blank. -/
theorem Args.Get_of_le (a : Args) (i : Nat) (h : a.length ≤ i) : a.Get i = "" := by
  simp [Args.Get, List.getD, List.getElem?_eq_none h]

/-- The loop of `getSubArgs` appends, to what it has collected, the arguments from
index `i` up to the first blank one. -/
theorem getSubArgsFrom_eq (a : Args) (n i : Nat) (sargs : List String)
    (hn : a.length - i = n) :
    getSubArgsFrom a i sargs = sargs ++ (a.drop i).takeWhile (fun s => s ≠ "") := by
  induction n generalizing i sargs with
  | zero =>
    have hle : a.length ≤ i := by omega
    rw [getSubArgsFrom]
    simp [Args.Get_of_le a i hle, List.drop_eq_nil_of_le hle]
  | succ n ih =>
    have hlt : i < a.length := by omega
    rw [getSubArgsFrom]
    rw [List.drop_eq_getElem_cons hlt]
    have hget : a.Get i = a[i] := Args.Get_of_lt a i hlt
    by_cases hb : a[i] = ""
    · simp [hget, hb, List.takeWhile_cons]
    · rw [dif_pos (by simpa [hget] using hb), ih (i + 1) _ (by omega), List.takeWhile_cons]
      simp [hget, hb]

/-- `getSubArgs` returns the arguments before the first blank one. -/
theorem getSubArgs_eq_takeWhile (c : Context) :
    getSubArgs c = c.args.takeWhile (fun s => s ≠ "") := by
  simpa [getSubArgs] using getSubArgsFrom_eq c.args _ 0 [] rfl

/-- When no argument is blank, `getSubArgs` returns every argument, in order. -/
theorem getSubArgs_eq_args (c : Context) (h : ∀ s ∈ c.args, s ≠ "") :
    getSubArgs c = c.args := by
  rw [getSubArgs_eq_takeWhile]
  exact List.takeWhile_eq_self_iff.mpr (by simpa using h)

/-! ### `upload` (C1) -/

/-- When there are at least two arguments and none is blank, `upload` calls
`RunUpload` with all arguments but the last as the local paths and the last one as
the target directory. -/
theorem upload_of_no_blank (c : Context) (w : World) (h2 : 2 ≤ c.NArg)
    (hnb : ∀ s ∈ c.args, s ≠ "") :
    ∃ savePath, c.args.get? (c.NArg - 1) = some savePath ∧
      upload c w = w.done [.RunUpload (c.args.take (c.NArg - 1)) savePath] := by
  have hlt : c.NArg - 1 < c.args.length := by simp only [Context.NArg] at h2 ⊢; omega
  refine ⟨c.args.get ⟨c.NArg - 1, hlt⟩, List.get?_eq_get hlt, ?_⟩
  have hle : ¬ c.NArg ≤ 1 := by omega
  simp only [upload, if_neg hle, getSubArgs_eq_args c hnb, List.get?_eq_get hlt]

/-- C1: with the three arguments `a`, a blank one and `b`, the `upload` action
does not call `RunUpload` with the local paths `a`, blank and the target `b`: it
panics before any call, because `getSubArgs` has returned one argument only. -/
theorem upload_blank_argument_panics (w : World) :
    getSubArgs ⟨["a", "", "b"], [], "upload"⟩ = ["a"] ∧
    upload ⟨["a", "", "b"], [], "upload"⟩ w = ⟨[], w.Config, .panicked⟩ := by
  constructor
  · rw [getSubArgs_eq_takeWhile]; decide
  · simp [upload, Context.NArg, getSubArgs_eq_takeWhile, List.takeWhile]

/-! ### `getSubArgs` under `rm`, `cp`, `mv` and `download` (C2) -/

/-- When no argument is blank, `rm`, `cp`, `mv` and `download` hand every argument,
in order, to `RunRemove`, `RunCopy`, `RunMove` and `RunDownload`. -/
theorem paths_of_no_blank (c : Context) (w : World) (hnb : ∀ s ∈ c.args, s ≠ "") :
    (0 < c.NArg → rm c w = w.done [.RunRemove c.args]) ∧
    (1 < c.NArg → cp c w = w.done [.RunCopy c.args]) ∧
    (1 < c.NArg → mv c w = w.done [.RunMove c.args]) ∧
    (0 < c.NArg →
      download c w = w.done [.RunDownload (c.BoolFlag "test") (c.IntFlag "p") c.args]) := by
  have hall := getSubArgs_eq_args c hnb
  refine ⟨?_, ?_, ?_, ?_⟩ <;> intro h
  · simp [rm, hall, Nat.pos_iff_ne_zero.mp h]
  · simp [cp, hall, Nat.not_le.mpr h]
  · simp [mv, hall, Nat.not_le.mpr h]
  · simp [download, hall, Nat.pos_iff_ne_zero.mp h]

/-- C2: with the three arguments `a`, a blank one and `b`, `getSubArgs` returns
`a` only, so `rm` asks `RunRemove` to remove `a` and never sees `b`. -/
theorem getSubArgs_stops_at_blank (w : World) :
    getSubArgs ⟨["a", "", "b"], [], "rm"⟩ = ["a"] ∧
    rm ⟨["a", "", "b"], [], "rm"⟩ w = w.done [.RunRemove ["a"]] := by
  constructor
  · rw [getSubArgs_eq_takeWhile]; decide
  · simp [rm, Context.NArg, getSubArgs_eq_takeWhile, List.takeWhile]

/-! ### `su` (C3, C8) -/

/-- The model of `CheckUIDExist` answers false exactly when no account of the
list has the id. -/
theorem CheckUIDExist_eq_false_iff (cfg : PCSConfig) (uid : Nat) :
    CheckUIDExist cfg uid = false ↔ ∀ u ∈ cfg.BaiduUserList, u.UID ≠ uid := by
  simp [CheckUIDExist]

/-- C3: when the account list is not empty and `--uid` names an id that no account
of the list has, `su` only prints that the uid does not exist: the configuration,
and with it the active account id, is unchanged, and `Save` is not called. -/
theorem su_unknown_uid (ParseUint : String → Option Nat) (c : Context) (w : World)
    (hlist : w.Config.BaiduUserList ≠ [])
    (hset : c.IsSet "uid" = true)
    (habsent : ∀ u ∈ w.Config.BaiduUserList, u.UID ≠ c.Uint64 ParseUint "uid") :
    (su ParseUint c w).Config = w.Config ∧
    (su ParseUint c w).Config.BaiduActiveUID = w.Config.BaiduActiveUID ∧
    Event.Save ∉ (su ParseUint c w).events ∧
    (su ParseUint c w).events = [.Println [.str "切换用户失败, uid 不存在"]] ∧
    (su ParseUint c w).status = .returned none := by
  have hlen : ¬ w.Config.BaiduUserList.length = 0 := by
    simpa [List.length_eq_zero] using hlist
  have hcheck := (CheckUIDExist_eq_false_iff w.Config _).mpr habsent
  simp [su, su.chooseUID, hlen, hset, hcheck, World.done]

/-- Example for C3: one account with id 1, and `--uid=7`. -/
theorem su_unknown_uid_example :
    Context.Uint64 (fun _ => some 7) ⟨[], [("uid", .str "7")], "su"⟩ "uid" = 7 ∧
    CheckUIDExist ⟨1, [sampleAccount 1 "a" "/"]⟩ 7 = false ∧
    (su (fun _ => some 7) ⟨[], [("uid", .str "7")], "su"⟩
        (sampleWorld ⟨1, [sampleAccount 1 "a" "/"]⟩ (.ok ""))).Config
      = ⟨1, [sampleAccount 1 "a" "/"]⟩ :=
  ⟨by decide, by decide,
    (su_unknown_uid (fun _ => some 7) ⟨[], [("uid", .str "7")], "su"⟩
      (sampleWorld ⟨1, [sampleAccount 1 "a" "/"]⟩ (.ok ""))
      (by decide) (by decide) (by decide)).1⟩

/-- C8: `su` without arguments and without `--uid`, on a non-empty account list
whose ids are all non-zero. The action does not panic (the list is never read out
of range). If `fmt.Scanln` reads a word that `strconv.Atoi` reads as an integer
`n` with `0 ≤ n` and `n` below the number of accounts, the active account id
becomes the id of the `n`-th account of the list, and the list is unchanged. In
every other case (the word is not a number, is negative, or is not below the
number of accounts) the configuration is unchanged and `Save` is not called. -/
theorem su_by_index (ParseUint : String → Option Nat) (c : Context) (w : World)
    (hlist : w.Config.BaiduUserList ≠ [])
    (huid : ∀ u ∈ w.Config.BaiduUserList, u.UID ≠ 0)
    (hflag : c.IsSet "uid" = false)
    (hnarg : c.NArg = 0) :
    (su ParseUint c w).status ≠ .panicked ∧
    (∀ (index : String) (n : Int), w.Scanln = .ok index → strconv.Atoi index = some n →
        0 ≤ n → n < (w.Config.BaiduUserList.length : Int) →
      ∃ u, w.Config.BaiduUserList.get? n.toNat = some u ∧
        (su ParseUint c w).Config.BaiduActiveUID = u.UID ∧
        (su ParseUint c w).Config.BaiduUserList = w.Config.BaiduUserList) ∧
    ((∀ (index : String) (n : Int), w.Scanln = .ok index → strconv.Atoi index = some n →
        ¬ (0 ≤ n ∧ n < (w.Config.BaiduUserList.length : Int))) →
      (su ParseUint c w).Config = w.Config ∧ Event.Save ∉ (su ParseUint c w).events) := by
  have hlen : ¬ w.Config.BaiduUserList.length = 0 := by
    simpa [List.length_eq_zero] using hlist
  cases hscan : w.Scanln with
  | error err => simp [su, su.chooseUID, hlen, hflag, hnarg, hscan, World.done, loglist]
  | ok index =>
    cases hparse : strconv.Atoi index with
    | none =>
      refine ⟨?_, ?_, ?_⟩
      · simp [su, su.chooseUID, hlen, hflag, hnarg, hscan, hparse, World.done]
      · intro index2 m hindex hm _ _
        obtain rfl : index = index2 := by simpa using hindex
        simp [hparse] at hm
      · intro _
        simp [su, su.chooseUID, hlen, hflag, hnarg, hscan, hparse, World.done, loglist]
    | some n =>
      by_cases hrange : 0 ≤ n ∧ n < (w.Config.BaiduUserList.length : Int)
      · have hlt : n.toNat < w.Config.BaiduUserList.length := by omega
        have hget :
            w.Config.BaiduUserList.get? n.toNat = some w.Config.BaiduUserList[n.toNat] :=
          List.get?_eq_get hlt
        have hne : w.Config.BaiduUserList[n.toNat].UID ≠ 0 := huid _ (List.getElem_mem _)
        refine ⟨?_, ?_, ?_⟩
        · cases hsave : w.Save <;>
            simp [su, su.chooseUID, hlen, hflag, hnarg, hscan, hparse, hrange, hne, hsave]
        · intro index2 m hindex hm _ _
          obtain rfl : index = index2 := by simpa using hindex
          obtain rfl : n = m := by simpa [hparse] using hm
          refine ⟨_, hget, ?_⟩
          cases hsave : w.Save <;>
            simp [su, su.chooseUID, hlen, hflag, hnarg, hscan, hparse, hrange, hne, hsave]
        · intro hother
          exact absurd hrange (hother index n rfl hparse)
      · refine ⟨?_, ?_, ?_⟩
        · simp [su, su.chooseUID, hlen, hflag, hnarg, hscan, hparse, hrange, World.done]
        · intro index2 m hindex hm h0 h1
          obtain rfl : index = index2 := by simpa using hindex
          obtain rfl : n = m := by simpa [hparse] using hm
          exact absurd ⟨h0, h1⟩ hrange
        · intro _
          simp [su, su.chooseUID, hlen, hflag, hnarg, hscan, hparse, hrange, World.done,
            loglist]

/-- Example for C8: two accounts with ids 11 and 22, none active; the word `1`
makes the second one active. -/
theorem su_by_index_example :
    strconv.Atoi "1" = some 1 ∧
    (su (fun _ => none) ⟨[], [], "su"⟩
        (sampleWorld ⟨0, [sampleAccount 11 "a" "/", sampleAccount 22 "b" "/"]⟩
          (.ok "1"))).Config.BaiduActiveUID = 22 := by
  refine ⟨by decide, ?_⟩
  obtain ⟨u, hu, hactive, _⟩ :=
    (su_by_index (fun _ => none) ⟨[], [], "su"⟩
      (sampleWorld ⟨0, [sampleAccount 11 "a" "/", sampleAccount 22 "b" "/"]⟩ (.ok "1"))
      (by decide) (by decide) (by decide) (by decide)).2.1 "1" 1 rfl (by decide) (by decide)
      (by decide)
  have hu2 : u = sampleAccount 22 "b" "/" := by
    have : (sampleWorld ⟨0, [sampleAccount 11 "a" "/", sampleAccount 22 "b" "/"]⟩
        (.ok "1")).Config.BaiduUserList.get? (1 : Int).toNat = some (sampleAccount 22 "b" "/") := by
      decide
    exact (Option.some.inj (hu.symm.trans this))
  rw [hactive, hu2]
  rfl

/-! ### `logout` (C9) -/

/-- When the confirmation cannot be read, or is neither `y` nor `Y`, `logout`
does not call `DeleteBaiduUserByUID` and leaves the configuration as it is. -/
theorem logout_not_confirmed (c : Context) (w : World)
    (h : ∀ confirm, w.Scanln = .ok confirm → confirm ≠ "y" ∧ confirm ≠ "Y") :
    (∀ uid, Event.DeleteBaiduUserByUID uid ∉ (logout c w).events) ∧
    (logout c w).Config = w.Config := by
  unfold logout
  split
  · simp [World.done]
  · cases hscan : w.Scanln with
    | error err => simp
    | ok confirm => simp [h confirm hscan, World.done]

/-- When the deletion succeeds, `logout` prints the success message and no
failure message. -/
theorem logout_deleted (c : Context) (w : World) (confirm : String) (cfg : PCSConfig)
    (hlist : w.Config.BaiduUserList ≠ [])
    (hscan : w.Scanln = .ok confirm) (hyes : confirm = "y" ∨ confirm = "Y")
    (hdel : DeleteBaiduUserByUID w.Config (MustGetActive w.Config).UID = .ok cfg) :
    logout c w =
      ⟨[.Printf "确认退出百度帐号: %s ? (y/n) > " [.str (MustGetActive w.Config).Name], .Scanln,
          .DeleteBaiduUserByUID (MustGetActive w.Config).UID,
          .Printf "退出用户成功, %s\n" [.str (MustGetActive w.Config).Name]],
        cfg, .returned none⟩ := by
  have hlen : ¬ w.Config.BaiduUserList.length = 0 := by
    simpa [List.length_eq_zero] using hlist
  have hconf : ¬ (confirm ≠ "y" ∧ confirm ≠ "Y") := by
    rcases hyes with h | h <;> simp [h]
  simp only [logout, if_neg hlen, hscan, if_neg hconf, hdel, List.cons_append, List.nil_append]

/-- Whenever the deletion fails, `logout` prints the failure message and then the
success message. -/
theorem logout_delete_failed (c : Context) (w : World) (confirm err : String)
    (hlist : w.Config.BaiduUserList ≠ [])
    (hscan : w.Scanln = .ok confirm) (hyes : confirm = "y" ∨ confirm = "Y")
    (hdel : DeleteBaiduUserByUID w.Config (MustGetActive w.Config).UID = .error err) :
    logout c w =
      w.done
        [.Printf "确认退出百度帐号: %s ? (y/n) > " [.str (MustGetActive w.Config).Name], .Scanln,
          .DeleteBaiduUserByUID (MustGetActive w.Config).UID,
          .Printf "退出用户 %s, 失败, 错误: %s\n" [.str (MustGetActive w.Config).Name, .str err],
          .Printf "退出用户成功, %s\n" [.str (MustGetActive w.Config).Name]] := by
  have hlen : ¬ w.Config.BaiduUserList.length = 0 := by
    simpa [List.length_eq_zero] using hlist
  have hconf : ¬ (confirm ≠ "y" ∧ confirm ≠ "Y") := by
    rcases hyes with h | h <;> simp [h]
  simp only [logout, if_neg hlen, hscan, if_neg hconf, hdel, List.cons_append, List.nil_append]

/-- C9: one account with id 1 and no active account, and the confirmation `y`.
`DeleteBaiduUserByUID` fails, and `logout` prints the failure message and, right
after it, the message that the logout succeeded. -/
theorem logout_failure_then_success :
    DeleteBaiduUserByUID ⟨0, [sampleAccount 1 "a" "/"]⟩ 0 = .error "NotFound" ∧
    (logout ⟨[], [], "logout"⟩
        (sampleWorld ⟨0, [sampleAccount 1 "a" "/"]⟩ (.ok "y"))).events =
      [.Printf "确认退出百度帐号: %s ? (y/n) > " [.str ""], .Scanln,
        .DeleteBaiduUserByUID 0,
        .Printf "退出用户 %s, 失败, 错误: %s\n" [.str "", .str "NotFound"],
        .Printf "退出用户成功, %s\n" [.str ""]] := by
  constructor <;> rfl

/-! ### `rapidupload` (C4) -/

/-- C4: `rapidupload` calls `RunRapidUpload` exactly when there is a positional
argument and the flags `md5`, `slicemd5` and `length` are all set. The call is
then its only call, made with the first argument and the values of the flags
`md5`, `slicemd5`, `crc32` and `length`, and the `crc32` value is blank when that
flag is not set. In every other case its only call shows the help of the
command. -/
theorem rapidupload_guard (c : Context) (w : World) :
    ((∃ t m s k l, Event.RunRapidUpload t m s k l ∈ (rapidupload c w).events) ↔
      (0 < c.NArg ∧ c.IsSet "md5" = true ∧ c.IsSet "slicemd5" = true ∧
        c.IsSet "length" = true)) ∧
    ((0 < c.NArg ∧ c.IsSet "md5" = true ∧ c.IsSet "slicemd5" = true ∧
        c.IsSet "length" = true) →
      (rapidupload c w).events =
        [.RunRapidUpload (c.args.Get 0) (c.Str "md5") (c.Str "slicemd5")
          (if c.IsSet "crc32" = true then c.Str "crc32" else "") (c.Int64 "length")]) ∧
    (¬ (0 < c.NArg ∧ c.IsSet "md5" = true ∧ c.IsSet "slicemd5" = true ∧
        c.IsSet "length" = true) →
      (rapidupload c w).events = [.ShowCommandHelp c.commandName]) := by
  have hcrc : (if c.IsSet "crc32" = true then c.Str "crc32" else "") = c.Str "crc32" := by
    by_cases h : c.IsSet "crc32" = true
    · simp [h]
    · have hnone : c.flags.lookup "crc32" = none := by
        cases hl : c.flags.lookup "crc32" with
        | none => rfl
        | some v => simp [Context.IsSet, hl] at h
      simp [h, Context.Str, hnone]
  rw [hcrc]
  by_cases hguard : 0 < c.NArg ∧ c.IsSet "md5" = true ∧ c.IsSet "slicemd5" = true ∧
      c.IsSet "length" = true
  · obtain ⟨h0, h1, h2, h3⟩ := hguard
    have h0' : ¬ c.NArg ≤ 0 := by omega
    simp [rapidupload, h0, h0', h1, h2, h3, World.done]
  · have hhelp : (rapidupload c w).events = [.ShowCommandHelp c.commandName] := by
      unfold rapidupload
      rw [if_pos]
      · rfl
      · by_contra hno
        apply hguard
        simp only [not_or, Bool.not_eq_true, Bool.not_eq_true', not_le] at hno
        simpa using hno
    simp [hguard, hhelp]

/-! ### The tab completer (C10) -/

/-- `strings.HasPrefix` holds exactly when the characters of the second text start
the first. -/
theorem strings.HasPrefix_iff (s p : String) :
    strings.HasPrefix s p = true ↔ p.data <+: s.data := by
  simp [strings.HasPrefix]

/-- The loop of the completer appends, to what it has collected, the matching
commands in order. -/
theorem completer_loop (line : String) (cmds : List Command) (acc : List String) :
    cmds.foldl
        (fun s cmd =>
          if !strings.HasPrefix cmd.FullName line then s else s ++ [cmd.FullName ++ " "])
        acc =
      acc ++ (cmds.filter fun cmd => decide (line.data <+: cmd.FullName.data)).map
        (fun cmd => cmd.FullName ++ " ") := by
  induction cmds generalizing acc with
  | nil => simp
  | cons cmd rest ih =>
    rw [List.foldl_cons, ih]
    by_cases h : line.data <+: cmd.FullName.data
    · have hp := (strings.HasPrefix_iff cmd.FullName line).mpr h
      simp [h, hp]
    · have hp : strings.HasPrefix cmd.FullName line = false := by
        rw [← Bool.not_eq_true, strings.HasPrefix_iff]
        exact h
      simp [h, hp]

/-- C10: for every list of registered commands and every typed line, the completer
returns, in the order of the command list, the full name followed by one space of
each command whose full name starts with the line. So the blank line gives every
command, and a line that starts no full name gives the empty list. -/
theorem completer_spec (cmds : List Command) (line : String) :
    completer cmds line =
      (cmds.filter fun cmd => decide (line.data <+: cmd.FullName.data)).map
        (fun cmd => cmd.FullName ++ " ") ∧
    completer cmds "" = cmds.map (fun cmd => cmd.FullName ++ " ") ∧
    ((∀ cmd ∈ cmds, ¬ line.data <+: cmd.FullName.data) → completer cmds line = []) := by
  have hloop : ∀ l : String, completer cmds l =
      (cmds.filter fun cmd => decide (l.data <+: cmd.FullName.data)).map
        (fun cmd => cmd.FullName ++ " ") := by
    intro l
    simpa [completer] using completer_loop l cmds []
  refine ⟨hloop line, ?_, ?_⟩
  · rw [hloop ""]
    congr 1
    exact List.filter_eq_self.mpr (by simp)
  · intro hnone
    rw [hloop line, List.map_eq_nil_iff, List.filter_eq_nil_iff]
    simpa using hnone

/-! ### The prompt (C7) -/

/-- The part of `su` that chooses the uid does not call the cache garbage
collection. -/
theorem su.chooseUID_no_gc (ParseUint : String → Option Nat) (c : Context) (w : World) :
    Event.DirCacheGC ∉ (su.chooseUID ParseUint c w).1 := by
  unfold su.chooseUID
  repeat' split
  all_goals simp [loglist, World.done]

/-- The action of `su` does not call the cache garbage collection. -/
theorem su_no_gc (ParseUint : String → Option Nat) (c : Context) (w : World) :
    Event.DirCacheGC ∉ (su ParseUint c w).events := by
  have hchoose := su.chooseUID_no_gc ParseUint c w
  unfold su
  repeat' split
  all_goals simp_all [World.done]

/-- No hook and no action of a registered command calls the cache garbage
collection. -/
theorem appCommands_no_gc (ParseUint : String → Option Nat) (cmd : Command)
    (hmem : cmd ∈ appCommands ParseUint) (c : Context) (w : World) :
    Event.DirCacheGC ∉ cmd.Before ∧ Event.DirCacheGC ∉ cmd.After ∧
      Event.DirCacheGC ∉ (cmd.Action c w).events := by
  simp only [appCommands, List.mem_cons, List.mem_singleton, List.not_mem_nil, or_false] at hmem
  rcases hmem with h | h | h | h | h | h | h | h | h | h | h | h | h | h | h | h | h | h |
    h | h | h
  all_goals subst h
  all_goals refine ⟨by simp [reloadFn], by simp [reloadFn], ?_⟩
  all_goals first
    | exact su_no_gc ParseUint c w
    | (simp only [web, run, login, login.setBDUSS, loglist, logout, quota, cd, ls, pwd, «meta»,
        rm, mkdir, cp, mv, download, upload, rapidupload, sumfile, set, quit, World.done]
       repeat' split
       all_goals simp)

/-- The command `app.Command` finds is a registered command. -/
theorem appCommand_mem (ParseUint : String → Option Nat) (name : String) (cmd : Command)
    (h : appCommand ParseUint name = some cmd) : cmd ∈ appCommands ParseUint :=
  List.mem_of_find?_eq_some h

/-- Running a registered command does not call the cache garbage collection. -/
theorem Command.Run_no_gc (ParseUint : String → Option Nat) (cmd : Command)
    (hmem : cmd ∈ appCommands ParseUint) (c : Context) (w : World) :
    Event.DirCacheGC ∉ (cmd.Run c w).1 := by
  obtain ⟨hb, ha, hact⟩ := appCommands_no_gc ParseUint cmd hmem c w
  unfold Command.Run
  split <;> simp [hb, ha, hact]

mutual
/-- No call of `app.Run` calls the cache garbage collection. -/
theorem Run.calls_no_gc (ParseUint : String → Option Nat)
    (ShortDisplay : String → Nat → String) :
    ∀ r : Run, Event.DirCacheGC ∉ (Run.trace ParseUint ShortDisplay r).1
  | .library => by simp [Run.trace]
  | .command name c w => by
    unfold Run.trace
    split
    · next cmd hcmd => exact Command.Run_no_gc ParseUint cmd (appCommand_mem _ _ _ hcmd) c w
    · simp
  | .app c w s => by
    have ih := Session.rounds_no_gc ParseUint ShortDisplay s
    unfold Run.trace
    rcases hst : Session.trace ParseUint ShortDisplay s with ⟨events, ending⟩
    rw [hst] at ih
    by_cases hn : c.NArg = 0 <;> cases ending <;> cases w.NewLineHistory <;> simp_all
/-- No round of the interactive loop calls the cache garbage collection. -/
theorem Session.rounds_no_gc (ParseUint : String → Option Nat)
    (ShortDisplay : String → Nat → String) :
    ∀ s : Session, Event.DirCacheGC ∉ (Session.trace ParseUint ShortDisplay s).1
  | .promptError w err => by simp [Session.trace]
  | .line w commandLine cmdArgs r next => by
    have ihr := Run.calls_no_gc ParseUint ShortDisplay r
    have ihn := Session.rounds_no_gc ParseUint ShortDisplay next
    unfold Session.trace
    rcases hrt : Run.trace ParseUint ShortDisplay r with ⟨events, ending⟩
    rw [hrt] at ihr
    by_cases hn : cmdArgs.length = 0 <;> cases ending <;> simp_all
end

/-- C6: in every run of the program the cache garbage collection is called
exactly once. The call is the last call of `init`, right after `pcsconfig.Init`
and `pcscommand.ReloadInfo`, and every call of `main` (so every hook and action of
a command it dispatches) comes after it; `main` itself never makes the call. -/
theorem gc_runs_once_at_start (ParseUint : String → Option Nat)
    (ShortDisplay : String → Nat → String) (r : Run) :
    init = [.pcsconfigInit, .ReloadInfo, .DirCacheGC] ∧
    process ParseUint ShortDisplay r =
      [.ExecutablePathJoin "pcs_command_history.txt", .pcsconfigInit, .ReloadInfo,
        .DirCacheGC] ++ main ParseUint ShortDisplay r ∧
    Event.DirCacheGC ∉ main ParseUint ShortDisplay r ∧
    (process ParseUint ShortDisplay r).count .DirCacheGC = 1 := by
  have hmain : Event.DirCacheGC ∉ main ParseUint ShortDisplay r :=
    Run.calls_no_gc ParseUint ShortDisplay r
  refine ⟨rfl, rfl, hmain, ?_⟩
  have hcount : (main ParseUint ShortDisplay r).count .DirCacheGC = 0 :=
    List.count_eq_zero.mpr hmain
  simp [process, historyFilePath.initializer, init, List.count_cons, hcount]

/-! ### `sumfile` (C5) -/

end BaiduPCSGo
